import Mathlib

/-!
Shallow embedding of the EPONA network simulator (files `epona.py` and
`physical.py`) and proofs about its frame codec, broadcast link, learning
switch and adapter.

Bytes are modelled as `Nat` values (with explicit `< 256` bounds where the
Python `bytes` type guarantees them), byte strings as `List Nat`, Python
`dict`s as association lists, and the one blocking wait of the adapter as an
oracle `signal : Nat → Bool` giving the value of `arpMessageRecieved`
observed after each timed wait.  Randomness (`random.randint`) is modelled by
explicit parameters.  Exceptions are modelled by explicit outcome types.
-/

namespace Epona

/-- bytesToNat models Python `int.from_bytes(bs, "big")`. -/
def bytesToNat (bs : List Nat) : Nat :=
  List.foldl (fun a b => a * 256 + b) 0 bs

/-- natToBytes n v models Python `v.to_bytes(n, "big")` (big-endian digits;
Python raises OverflowError for `v ≥ 256 ^ n`, the model truncates, and every
use below is under a `v < 256 ^ n` bound). -/
def natToBytes : Nat → Nat → List Nat
  | 0, _ => []
  | n + 1, v => natToBytes n (v / 256) ++ [v % 256]

/-- xorAll models the running 8-bit XOR loop of `Frame.CreateChecksum`. -/
def xorAll (bs : List Nat) : Nat :=
  List.foldl Nat.xor 0 bs

/-- Reserved resolution protocol number `MARE_PROTONUM = 0x0806` from `physical.py`. -/
def MARE_PROTONUM : Nat := 0x0806

/-- Broadcast hardware address `BROADCAST_MAC = ff ff ff ff ff ff` from `physical.py`. -/
def BROADCAST_MAC : List Nat := [0xff, 0xff, 0xff, 0xff, 0xff, 0xff]

/-- Frame mirrors the `Frame` class of `epona.py`: protocol number, destination
MAC, source MAC, checksum field and datagram (payload). -/
structure Frame where
  protocol : Nat
  dstMacAdr : List Nat
  sourceMacAdr : List Nat
  checksum : List Nat
  datagram : List Nat
deriving DecidableEq

/-- toBytes mirrors `Frame.toBytes`: protocol (6 bytes big-endian), dstMacAdr,
sourceMacAdr, checksum, datagram, concatenated. -/
def Frame.toBytes (f : Frame) : List Nat :=
  natToBytes 6 f.protocol ++ f.dstMacAdr ++ f.sourceMacAdr ++ f.checksum ++ f.datagram

/-- CreateChecksum mirrors `Frame.CreateChecksum`: it first assigns
`self.checksum = b''` (a side effect on the frame, returned as the second
component), then XORs every byte of the serialised frame and returns that
value as a 4-byte big-endian field (first component).  The method does not
restore `self.checksum`. -/
def Frame.CreateChecksum (f : Frame) : List Nat × Frame :=
  let f2 : Frame := { f with checksum := [] }
  (natToBytes 4 (xorAll f2.toBytes), f2)

/-- init mirrors the `Frame.__init__` constructor, which ends with
`self.checksum = self.CreateChecksum()`. -/
def Frame.init (protocol : Nat) (dst src dgram : List Nat) : Frame :=
  let f0 : Frame := ⟨protocol, dst, src, [], dgram⟩
  { f0 with checksum := (f0.CreateChecksum).1 }

/-- toFrame mirrors `Frame.toFrame`: Python slices (`byteStream[0:6]`,
`[6:12]`, `[12:18]`, `[18:22]`, `[22:]`) are `take`/`drop` combinations, which
agree with Python slicing also on buffers shorter than 22 bytes (no error is
raised).  The constructed frame's computed checksum is then overwritten with
the sliced checksum field. -/
def Frame.toFrame (byteStream : List Nat) : Frame :=
  let protocol := bytesToNat (byteStream.take 6)
  let dstMacAdr := (byteStream.drop 6).take 6
  let sourceMacAdr := (byteStream.drop 12).take 6
  let checksum := (byteStream.drop 18).take 4
  let datagram := byteStream.drop 22
  let frame := Frame.init protocol dstMacAdr sourceMacAdr datagram
  { frame with checksum := checksum }

/-- ConfirmChecksum mirrors `Frame.ConfirmChecksum`: it saves the stored
checksum, recomputes via `CreateChecksum` (whose side effect leaves
`self.checksum = b''`), and compares.  The mutated frame is the second
component. -/
def Frame.ConfirmChecksum (f : Frame) : Bool × Frame :=
  let originalChecksum := f.checksum
  let r := f.CreateChecksum
  (r.1 == originalChecksum, r.2)

/-- flipBitAt models the corruption step inside `BroadcastLink.tx`:
`before, byte, after = frame[:pos], frame[pos], frame[pos+1:]` followed by
`byte ^= 1 << bit` and reassembly. -/
def flipBitAt (buf : List Nat) (pos bit : Nat) : List Nat :=
  buf.take pos ++ [buf.getD pos 0 ^^^ 2 ^ bit] ++ buf.drop (pos + 1)

/-- flipBit flips the single bit `i` of a byte string viewed as `8 * length`
bits: bit `i % 8` of byte `i / 8`. -/
def flipBit (buf : List Nat) (i : Nat) : List Nat :=
  flipBitAt buf (i / 8) (i % 8)

/-- LinkState models the mutable state of `BroadcastLink` from `physical.py`:
the set of attached nodes (modelled as a list of node identifiers; theorems
assume `Nodup` where the Python `set` semantics matters) and the one-shot
corruption flag `_corrupt`. -/
structure LinkState where
  nodes : List Nat
  corrupt : Bool
deriving DecidableEq

/-- corrupt_next models `BroadcastLink.corrupt_next`. -/
def BroadcastLink.corrupt_next (st : LinkState) : LinkState :=
  { st with corrupt := true }

/-- TxBuf models the `frame` argument of `tx`: either a byte sequence, or a
value that is not a `ByteString` (for which Python raises TypeError). -/
inductive TxBuf
  | bytes (l : List Nat)
  | notBytes
deriving DecidableEq

/-- TxErr models the exceptions `tx` can raise: the
`assert sender in self._nodes` failure, the TypeError for a non-byte buffer,
and the ValueError raised by `random.randint(0, len(frame) - 1)` when the
corruption branch runs on an empty buffer. -/
inductive TxErr
  | assertionError
  | typeError
  | valueError
deriving DecidableEq

/-- TxOutcome of a `tx` call: normal completion with the post-state and the
list of `(receiver, delivered bytes)` callbacks performed, or an exception
together with the state at raise time (nothing was mutated before any raise in
the source, so that state equals the entry state). -/
inductive TxOutcome
  | ok (st : LinkState) (deliveries : List (Nat × List Nat))
  | err (e : TxErr) (st : LinkState)
deriving DecidableEq

/-- tx models `BroadcastLink.tx`.  The random byte position and bit index used
by the corruption branch are passed in as parameters `pos` and `bit` (oracles
for `random.randint`).  It mirrors the source order: assert, type check,
optional corruption (computed once, before the delivery loop), delivery to
every attached node other than the sender, and only then
`self._corrupt = False`. -/
def BroadcastLink.tx (st : LinkState) (sender : Nat) (buf : TxBuf) (pos bit : Nat) :
    TxOutcome :=
  if sender ∈ st.nodes then
    match buf with
    | .notBytes => .err .typeError st
    | .bytes frame0 =>
      if st.corrupt then
        if frame0.length = 0 then .err .valueError st
        else
          .ok { st with corrupt := false }
            ((st.nodes.filter (fun n => n ≠ sender)).map
              (fun n => (n, flipBitAt frame0 pos bit)))
      else
        .ok { st with corrupt := false }
          ((st.nodes.filter (fun n => n ≠ sender)).map (fun n => (n, frame0)))
  else .err .assertionError st

/-- dictLookup models Python `k in d` / `d[k]` on a dict represented as an
association list (keys are byte strings). -/
def dictLookup {α : Type} : List (List Nat × α) → List Nat → Option α
  | [], _ => none
  | (k', v) :: rest, k => if k = k' then some v else dictLookup rest k

/-- dictInsert models Python `d[k] = v`: overwrite the value if the key is
present, otherwise add the binding. -/
def dictInsert {α : Type} : List (List Nat × α) → List Nat → α → List (List Nat × α)
  | [], k, v => [(k, v)]
  | (k', v') :: rest, k, v =>
      if k = k' then (k, v) :: rest else (k', v') :: dictInsert rest k v

/-- SwitchState models `EponaSwitch`: the number of ports and the switching
table (source hwaddr → port). -/
structure SwitchState where
  nports : Nat
  switchingTable : List (List Nat × Nat)
deriving DecidableEq

/-- broadcast models `EponaSwitch.broadcast`: a `while` loop forwarding the
frame out every port index except `port`, in increasing order (`forward` on an
unplugged port is a no-op on the wire; the model records the forward calls). -/
def EponaSwitch.broadcast (st : SwitchState) (frame : List Nat) (port : Nat) :
    List (Nat × List Nat) :=
  ((List.range st.nports).filter (fun i => i ≠ port)).map (fun i => (i, frame))

/-- rx models `EponaSwitch.rx`: decode, return on bad checksum, forward to the
learned port when the destination hwaddr is in the switching table (except
when that port is the ingress port), otherwise learn (source hwaddr → port)
and flood.  Returns the new switch state and the list of `(port, frame)`
forward calls. -/
def EponaSwitch.rx (st : SwitchState) (port : Nat) (frame : List Nat) :
    SwitchState × List (Nat × List Nat) :=
  let completeFrame := (Frame.toFrame frame).ConfirmChecksum
  if completeFrame.1 = false then (st, [])
  else
    match dictLookup st.switchingTable completeFrame.2.dstMacAdr with
    | some p => if p ≠ port then (st, [(p, frame)]) else (st, [])
    | none =>
        ({ st with switchingTable :=
            dictInsert st.switchingTable completeFrame.2.sourceMacAdr port },
          EponaSwitch.broadcast st frame port)

/-- ArpFrame mirrors the `ArpFrame` class of `epona.py`: destination MAC,
source MAC, destination IP, source IP and the success marker, which the
constructor stores as the four ASCII bytes of the string `0xff` when the flag
is true and as the empty byte string otherwise. -/
structure ArpFrame where
  dstMacAdr : List Nat
  sourceMacAdr : List Nat
  dstIpAdr : List Nat
  sourceIpAdr : List Nat
  isSuccess : List Nat
deriving DecidableEq

/-- successBytes is Python `b'0xff'`: the four ASCII character codes of
`0xff`, not the single byte 255. -/
def successBytes : List Nat := [0x30, 0x78, 0x66, 0x66]

/-- init mirrors `ArpFrame.__init__`. -/
def ArpFrame.init (dst src dstIp srcIp : List Nat) (flag : Bool) : ArpFrame :=
  ⟨dst, src, dstIp, srcIp, if flag then successBytes else []⟩

/-- toFrame mirrors `ArpFrame.toFrame`: slices `[0:6]`, `[6:12]`, `[12:16]`,
`[16:20]`, and `isSuccess = byteStream[20:] != b''` fed back through the
constructor (decoders accept any non-empty tail as success). -/
def ArpFrame.toFrame (byteStream : List Nat) : ArpFrame :=
  ArpFrame.init (byteStream.take 6) ((byteStream.drop 6).take 6)
    ((byteStream.drop 12).take 4) ((byteStream.drop 16).take 4)
    (byteStream.drop 20 != [])

/-- toBytes mirrors `ArpFrame.toBytes`. -/
def ArpFrame.toBytes (a : ArpFrame) : List Nat :=
  a.dstMacAdr ++ a.sourceMacAdr ++ a.dstIpAdr ++ a.sourceIpAdr ++ a.isSuccess

/-- Iface models the `IPv4Interface` an adapter is constructed with: the
packed 4-byte address and the subnet mask length. -/
structure Iface where
  ip : List Nat
  maskLen : Nat
deriving DecidableEq

/-- inNetwork models Python `IPv4Address(addr) in self.iface.network`:
membership of a 4-byte address in the interface's subnet, i.e. equality of the
top `maskLen` bits of the 32-bit addresses. -/
def inNetwork (iface : Iface) (addr : List Nat) : Bool :=
  decide (bytesToNat addr / 2 ^ (32 - iface.maskLen) =
    bytesToNat iface.ip / 2 ^ (32 - iface.maskLen))

/-- AdapterState models the state of `EponaAdapter`: the read-only
construction parameters (hwaddr, interface, packed gateway address) together
with the ARP resolution cache `arpTable` and the `arpMessageRecieved` flag.
The `threading.Event` used for the timed wait is represented by the wait
oracle `signal` passed to the operations. -/
structure AdapterState where
  hwaddr : List Nat
  iface : Iface
  gateway : List Nat
  arpTable : List (List Nat × List Nat)
  arpMessageRecieved : Bool
deriving DecidableEq

/-- Ev records the externally observable actions of the adapter: a link
transmission (`self.tx` of the encoded frame), a timed wait
(`self.timeout.wait(0.1)`, i.e. up to 100 ms), and an upper-layer delivery
(`self.input(protonum, datagram)`). -/
inductive Ev
  | tx (bytes : List Nat)
  | wait (ms : Nat)
  | input (protonum : Nat) (dgram : List Nat)
deriving DecidableEq

/-- AErr: `NoRouteToHost` raised by `arpIpDiscoverProcess`, plus a
fuel-exhaustion marker for the unbounded recursion of `output_ip` (in Python
that recursion would never return; running out of fuel is therefore never a
"successful return"). -/
inductive AErr
  | noRouteToHost
  | outOfFuel
deriving DecidableEq

/-- output models `EponaAdapter.output`: build a frame with the adapter's
hwaddr as source and transmit its serialisation (recorded as an event;
`Adapter.tx` is a no-op without an attached link and never changes adapter
state). -/
def EponaAdapter.output (st : AdapterState) (protonum : Nat) (dst dgram : List Nat) :
    List Ev :=
  [Ev.tx ((Frame.init protonum dst st.hwaddr dgram).toBytes)]

/-- discoverLoop models the `while count > 0` retry loop of
`arpIpDiscoverProcess`: each iteration broadcasts the prebuilt request frame,
waits up to 100 ms, and returns when `arpMessageRecieved` — whose value
observed after the i-th wait is `signal i`, set concurrently by the rx path —
is true (also clearing the flag); when the counter runs out the caller raises
`NoRouteToHost`.  Returns (state, events, raised?, next oracle index). -/
def discoverLoop (signal : Nat → Bool) (reqBytes : List Nat) :
    Nat → Nat → AdapterState → AdapterState × List Ev × Bool × Nat
  | 0, k, st => (st, [], true, k)
  | count + 1, k, st =>
      let st1 : AdapterState := { st with arpMessageRecieved := signal k }
      if st1.arpMessageRecieved then
        ({ st1 with arpMessageRecieved := false },
          [Ev.tx reqBytes, Ev.wait 100], false, k + 1)
      else
        let r := discoverLoop signal reqBytes count (k + 1) st1
        (r.1, Ev.tx reqBytes :: Ev.wait 100 :: r.2.1, r.2.2.1, r.2.2.2)

/-- arpIpDiscoverProcess models `EponaAdapter.arpIpDiscoverProcess`: build the
ARP request payload once (`dst_hw = src_hw = self.hwaddr`,
`dst_ip = addr`, `src_ip = self.iface.packed`, no success flag), then run the
3-attempt loop; `raise self.NoRouteToHost` is signalled by the returned
Bool. -/
def EponaAdapter.arpIpDiscoverProcess (signal : Nat → Bool) (st : AdapterState)
    (addr : List Nat) (k : Nat) : AdapterState × List Ev × Bool × Nat :=
  let arpFrameBytes := (ArpFrame.init st.hwaddr st.hwaddr addr st.iface.ip false).toBytes
  discoverLoop signal
    ((Frame.init MARE_PROTONUM BROADCAST_MAC st.hwaddr arpFrameBytes).toBytes) 3 k st

/-- output_ip models `EponaAdapter.output_ip`.  The Python function is
recursive with no decreasing measure (it retries the same address after a
discovery and redirects off-subnet traffic to the gateway), so the model takes
explicit fuel; exhausting fuel yields `AErr.outOfFuel`, never a successful
return.  `k` threads the wait-oracle index.  Returns (state, events, raised
error if any). -/
def EponaAdapter.output_ip (signal : Nat → Bool) :
    Nat → Nat → AdapterState → Nat → List Nat → List Nat →
    AdapterState × List Ev × Option AErr
  | 0, _, st, _, _, _ => (st, [], some .outOfFuel)
  | fuel + 1, k, st, protonum, addr, dgram =>
      if inNetwork st.iface addr = false then
        if dictLookup st.arpTable st.gateway = none then
          let d := EponaAdapter.arpIpDiscoverProcess signal st st.gateway k
          if d.2.2.1 then (d.1, d.2.1, some .noRouteToHost)
          else
            let r := EponaAdapter.output_ip signal fuel d.2.2.2 d.1 protonum
              d.1.gateway dgram
            (r.1, d.2.1 ++ r.2.1, r.2.2)
        else
          EponaAdapter.output_ip signal fuel k st protonum st.gateway dgram
      else
        match dictLookup st.arpTable addr with
        | some mac => (st, EponaAdapter.output st protonum mac dgram, none)
        | none =>
            let d := EponaAdapter.arpIpDiscoverProcess signal st addr k
            if d.2.2.1 then (d.1, d.2.1, some .noRouteToHost)
            else
              let r := EponaAdapter.output_ip signal fuel d.2.2.2 d.1 protonum addr dgram
              (r.1, d.2.1 ++ r.2.1, r.2.2)

/-- arpFrameRecievedProcedure models `EponaAdapter.arpFrameRecievedProcedure`:
re-decode the ARP payload from the frame bytes; if its destination IP is this
adapter's, learn (src_ip → src_hw) unconditionally, then either signal the
pending waiter (`successfulArpMessageRecieved` sets `arpMessageRecieved` and
the event; the woken thread is represented by the wait oracle) when the
success marker and destination MAC match, or send the success reply back
through `output_ip`. -/
def EponaAdapter.arpFrameRecievedProcedure (signal : Nat → Bool) (fuel k : Nat)
    (st : AdapterState) (frame : List Nat) : AdapterState × List Ev × Option AErr :=
  let completeFrame := ArpFrame.toFrame (Frame.toFrame frame).datagram
  if completeFrame.dstIpAdr = st.iface.ip then
    let st1 : AdapterState :=
      { st with arpTable :=
          dictInsert st.arpTable completeFrame.sourceIpAdr completeFrame.sourceMacAdr }
    if completeFrame.isSuccess = successBytes ∧ completeFrame.dstMacAdr = st.hwaddr then
      ({ st1 with arpMessageRecieved := true }, [], none)
    else
      EponaAdapter.output_ip signal fuel k st1 MARE_PROTONUM completeFrame.sourceIpAdr
        (ArpFrame.init completeFrame.sourceMacAdr st.hwaddr completeFrame.sourceIpAdr
          st.iface.ip true).toBytes
  else (st, [], none)

/-- rx models `EponaAdapter.rx`: decode; drop on bad checksum; dispatch
resolution frames (regardless of link-layer destination); deliver to the
upper layer when the destination hwaddr is this adapter's or broadcast;
otherwise drop. -/
def EponaAdapter.rx (signal : Nat → Bool) (fuel k : Nat) (st : AdapterState)
    (frame : List Nat) : AdapterState × List Ev × Option AErr :=
  let completeFrame := (Frame.toFrame frame).ConfirmChecksum
  if completeFrame.1 = false then (st, [], none)
  else if completeFrame.2.protocol = MARE_PROTONUM then
    EponaAdapter.arpFrameRecievedProcedure signal fuel k st frame
  else if st.hwaddr = completeFrame.2.dstMacAdr ∨
      BROADCAST_MAC = completeFrame.2.dstMacAdr then
    (st, [Ev.input completeFrame.2.protocol completeFrame.2.datagram], none)
  else (st, [], none)

/-- arpRequestBytes is the encoded link-broadcast ARP request frame that
`arpIpDiscoverProcess` transmits on each attempt. -/
def arpRequestBytes (st : AdapterState) (addr : List Nat) : List Nat :=
  (Frame.init MARE_PROTONUM BROADCAST_MAC st.hwaddr
    (ArpFrame.init st.hwaddr st.hwaddr addr st.iface.ip false).toBytes).toBytes

/-- sampleAdapter is a concrete adapter on 10.0.0.1/24 with gateway 10.0.0.254
already resolved in its ARP cache. -/
def sampleAdapter : AdapterState :=
  { hwaddr := [1, 2, 3, 4, 5, 6],
    iface := { ip := [10, 0, 0, 1], maskLen := 24 },
    gateway := [10, 0, 0, 254],
    arpTable := [([10, 0, 0, 254], [9, 9, 9, 9, 9, 9])],
    arpMessageRecieved := false }

/-- sampleSwitch is a concrete 6-port switch that has learned hwaddr
`01:02:03:04:05:06` on port 2. -/
def sampleSwitch : SwitchState :=
  { nports := 6, switchingTable := [([1, 2, 3, 4, 5, 6], 2)] }

/-- sampleFrameBytes is the encoding of a concrete valid frame addressed to
hwaddr `01:02:03:04:05:06`. -/
def sampleFrameBytes : List Nat :=
  (Frame.init 3 [1, 2, 3, 4, 5, 6] [7, 8, 9, 10, 11, 12] [9]).toBytes

theorem bytesToNat_append_singleton (l : List Nat) (b : Nat) :
    bytesToNat (l ++ [b]) = bytesToNat l * 256 + b := by
  simp [bytesToNat, List.foldl_append]

theorem natToBytes_length (n v : Nat) : (natToBytes n v).length = n := by
  induction n generalizing v with
  | zero => rfl
  | succ n ih => simp [natToBytes, ih]

theorem natToBytes_bytesToNat (l : List Nat) (h : ∀ b ∈ l, b < 256) :
    natToBytes l.length (bytesToNat l) = l := by
  induction l using List.reverseRecOn with
  | nil => rfl
  | append_singleton xs x ih =>
      have hx : x < 256 := h x (by simp)
      have hxs : ∀ b ∈ xs, b < 256 := fun b hb => h b (by simp [hb])
      have hlen : (xs ++ [x]).length = xs.length + 1 := by simp
      rw [hlen, bytesToNat_append_singleton, natToBytes]
      have hdiv : (bytesToNat xs * 256 + x) / 256 = bytesToNat xs := by omega
      have hmod : (bytesToNat xs * 256 + x) % 256 = x := by omega
      rw [hdiv, hmod, ih hxs]

theorem bytesToNat_natToBytes (n : Nat) (v : Nat) (h : v < 256 ^ n) :
    bytesToNat (natToBytes n v) = v := by
  induction n generalizing v with
  | zero =>
      have : v = 0 := by simpa using Nat.lt_one_iff.mp (by simpa using h)
      simp [this, natToBytes, bytesToNat]
  | succ n ih =>
      rw [natToBytes, bytesToNat_append_singleton, ih _ ?_]
      · omega
      · have : v < 256 ^ n * 256 := by rw [← pow_succ]; exact h
        exact Nat.div_lt_of_lt_mul (by omega)

theorem natToBytes_mem_lt (n v : Nat) : ∀ b ∈ natToBytes n v, b < 256 := by
  induction n generalizing v with
  | zero => simp [natToBytes]
  | succ n ih =>
      intro b hb
      rw [natToBytes] at hb
      rcases List.mem_append.mp hb with h | h
      · exact ih _ b h
      · simp at h
        omega

theorem foldl_xor_eq (a : Nat) (l : List Nat) :
    List.foldl Nat.xor a l = a ^^^ xorAll l := by
  induction l generalizing a with
  | nil => simp [xorAll]
  | cons x xs ih =>
      show List.foldl Nat.xor (a ^^^ x) xs = a ^^^ xorAll (x :: xs)
      rw [ih]
      have : xorAll (x :: xs) = x ^^^ xorAll xs := by
        show List.foldl Nat.xor (0 ^^^ x) xs = x ^^^ xorAll xs
        rw [ih]
        simp
      rw [this, Nat.xor_assoc]

theorem xorAll_cons (x : Nat) (l : List Nat) : xorAll (x :: l) = x ^^^ xorAll l := by
  show List.foldl Nat.xor (0 ^^^ x) l = x ^^^ xorAll l
  rw [foldl_xor_eq]
  simp

theorem xorAll_append (l₁ l₂ : List Nat) :
    xorAll (l₁ ++ l₂) = xorAll l₁ ^^^ xorAll l₂ := by
  show List.foldl Nat.xor 0 (l₁ ++ l₂) = _
  rw [List.foldl_append, foldl_xor_eq]
  rfl

theorem xorAll_lt (l : List Nat) (h : ∀ b ∈ l, b < 256) : xorAll l < 256 := by
  induction l with
  | nil => simp [xorAll]
  | cons x xs ih =>
      rw [xorAll_cons]
      have hx : x < 2 ^ 8 := h x (by simp)
      have hxs : xorAll xs < 2 ^ 8 := ih fun b hb => h b (by simp [hb])
      exact Nat.xor_lt_two_pow hx hxs

theorem natToBytes_four_of_lt (v : Nat) (h : v < 256) :
    natToBytes 4 v = [0, 0, 0, v] := by
  have h1 : v / 256 = 0 := Nat.div_eq_of_lt h
  have h2 : v % 256 = v := Nat.mod_eq_of_lt h
  show natToBytes 3 (v / 256) ++ [v % 256] = _
  rw [h1, h2]
  rfl

theorem xorAll_natToBytes_four (v : Nat) (h : v < 256) :
    xorAll (natToBytes 4 v) = v := by
  rw [natToBytes_four_of_lt v h, xorAll_cons, xorAll_cons, xorAll_cons, xorAll_cons]
  simp [xorAll]

theorem Frame.init_checksum (p : Nat) (dst src dgram : List Nat) :
    (Frame.init p dst src dgram).checksum =
      natToBytes 4 (xorAll (natToBytes 6 p ++ dst ++ src ++ dgram)) := by
  simp [Frame.init, Frame.CreateChecksum, Frame.toBytes]

theorem Frame.init_toBytes (p : Nat) (dst src dgram : List Nat) :
    (Frame.init p dst src dgram).toBytes =
      natToBytes 6 p ++ dst ++ src ++
        natToBytes 4 (xorAll (natToBytes 6 p ++ dst ++ src ++ dgram)) ++ dgram := by
  simp [Frame.init, Frame.CreateChecksum, Frame.toBytes]

theorem take_len_append {α : Type} (l₁ l₂ : List α) (n : Nat) (h : l₁.length = n) :
    (l₁ ++ l₂).take n = l₁ := by
  subst h
  simp

theorem drop_len_append {α : Type} (l₁ l₂ : List α) (n : Nat) (h : l₁.length = n) :
    (l₁ ++ l₂).drop n = l₂ := by
  subst h
  simp

/-- toFrame applied to a buffer laid out exactly as a 22-byte header plus
payload recovers the slices. -/
theorem Frame.toFrame_layout (A B C D E : List Nat)
    (hA : A.length = 6) (hB : B.length = 6) (hC : C.length = 6) (hD : D.length = 4) :
    Frame.toFrame (A ++ B ++ C ++ D ++ E) =
      { Frame.init (bytesToNat A) B C E with checksum := D } := by
  simp [Frame.toFrame, List.take_append_eq_append_take, List.drop_append_eq_append_drop,
    List.take_of_length_le, List.drop_eq_nil_of_le, hA, hB, hC, hD]

theorem Frame.confirm_init (p : Nat) (dst src dgram : List Nat) :
    ((Frame.init p dst src dgram).ConfirmChecksum).1 = true := by
  simp [Frame.ConfirmChecksum, Frame.CreateChecksum, Frame.init, Frame.toBytes]

/-- Any buffer splits as the five slices of the frame layout (unconditionally:
for short buffers some slices are short or empty, as in Python). -/
theorem buf_layout (buf : List Nat) :
    buf = buf.take 6 ++ (buf.drop 6).take 6 ++ (buf.drop 12).take 6 ++
      (buf.drop 18).take 4 ++ buf.drop 22 := by
  have h22 : buf.take 22 ++ buf.drop 22 = buf := List.take_append_drop 22 buf
  have e1 : buf.take 22 = buf.take 18 ++ (buf.drop 18).take 4 := by
    rw [← List.take_add]
  have e2 : buf.take 18 = buf.take 12 ++ (buf.drop 12).take 6 := by
    rw [← List.take_add]
  have e3 : buf.take 12 = buf.take 6 ++ (buf.drop 6).take 6 := by
    rw [← List.take_add]
  conv_lhs => rw [← h22, e1, e2, e3]

theorem Frame.confirm_override (P : Nat) (B C E D : List Nat) :
    (({ Frame.init P B C E with checksum := D } : Frame).ConfirmChecksum).1 =
      (natToBytes 4 (xorAll (natToBytes 6 P ++ B ++ C ++ E)) == D) := by
  simp [Frame.ConfirmChecksum, Frame.CreateChecksum, Frame.toBytes, Frame.init]

/-- Any buffer whose decoded frame passes `ConfirmChecksum` has XOR 0 over all
of its bytes (the three high checksum bytes must be zero and the low byte must
equal the XOR of all non-checksum bytes). -/
theorem xorAll_eq_zero_of_confirm (buf : List Nat) (hlen : 22 ≤ buf.length)
    (hb : ∀ b ∈ buf, b < 256)
    (hv : ((Frame.toFrame buf).ConfirmChecksum).1 = true) : xorAll buf = 0 := by
  have hlay := buf_layout buf
  set A := buf.take 6 with hA
  set B := (buf.drop 6).take 6 with hB
  set C := (buf.drop 12).take 6 with hC
  set D := (buf.drop 18).take 4 with hD
  set E := buf.drop 22 with hE
  have hAl : A.length = 6 := by rw [hA, List.length_take]; omega
  have hBl : B.length = 6 := by rw [hB, List.length_take, List.length_drop]; omega
  have hCl : C.length = 6 := by rw [hC, List.length_take, List.length_drop]; omega
  have hDl : D.length = 4 := by rw [hD, List.length_take, List.length_drop]; omega
  have hbA : ∀ b ∈ A, b < 256 := fun b h => hb b (List.take_subset _ _ h)
  have hbB : ∀ b ∈ B, b < 256 := fun b h =>
    hb b (List.drop_subset _ _ (List.take_subset _ _ h))
  have hbC : ∀ b ∈ C, b < 256 := fun b h =>
    hb b (List.drop_subset _ _ (List.take_subset _ _ h))
  have hbE : ∀ b ∈ E, b < 256 := fun b h => hb b (List.drop_subset _ _ h)
  have hproto : natToBytes 6 (bytesToNat A) = A := by
    conv_lhs => rw [← hAl]
    exact natToBytes_bytesToNat A hbA
  rw [hlay, Frame.toFrame_layout A B C D E hAl hBl hCl hDl,
    Frame.confirm_override, hproto, beq_iff_eq] at hv
  have hr : xorAll (A ++ B ++ C ++ E) < 256 := by
    apply xorAll_lt
    intro b h
    rcases List.mem_append.mp h with h1 | h1
    · rcases List.mem_append.mp h1 with h2 | h2
      · rcases List.mem_append.mp h2 with h3 | h3
        · exact hbA b h3
        · exact hbB b h3
      · exact hbC b h2
    · exact hbE b h1
  have hxD : xorAll D = xorAll (A ++ B ++ C ++ E) := by
    rw [← hv, xorAll_natToBytes_four _ hr]
  rw [hlay, xorAll_append, xorAll_append, xorAll_append, xorAll_append, hxD,
    xorAll_append, xorAll_append, xorAll_append]
  generalize xorAll A ^^^ xorAll B ^^^ xorAll C = s
  generalize xorAll E = e
  rw [← Nat.xor_assoc, Nat.xor_self, Nat.zero_xor, Nat.xor_self]

theorem confirm_eq_false_of_xorAll_ne (buf : List Nat) (hlen : 22 ≤ buf.length)
    (hb : ∀ b ∈ buf, b < 256) (hx : xorAll buf ≠ 0) :
    ((Frame.toFrame buf).ConfirmChecksum).1 = false := by
  cases hc : ((Frame.toFrame buf).ConfirmChecksum).1 with
  | false => rfl
  | true => exact absurd (xorAll_eq_zero_of_confirm buf hlen hb hc) hx

theorem Frame.toFrame_init (p : Nat) (dst src dgram : List Nat)
    (hp : p < 2 ^ 48) (hdl : dst.length = 6) (hsl : src.length = 6) :
    Frame.toFrame (Frame.init p dst src dgram).toBytes = Frame.init p dst src dgram := by
  have h256 : p < 256 ^ 6 := by
    have h : (256 : Nat) ^ 6 = 2 ^ 48 := by norm_num
    rw [h]
    exact hp
  rw [Frame.init_toBytes,
    Frame.toFrame_layout _ _ _ _ _ (natToBytes_length 6 p) hdl hsl (natToBytes_length 4 _),
    bytesToNat_natToBytes 6 p h256, ← Frame.init_checksum]

/-- C1: for every link frame `f` with protonum in `[0, 2^48)`, 6-byte
destination and source hwaddrs and an arbitrary byte-string payload, decoding
the encoding of `f` yields a frame equal to `f` (all five fields equal), and
checksum verification of the decoded frame returns true. -/
theorem C1_decode_encode_roundtrip (p : Nat) (dst src dgram : List Nat)
    (hp : p < 2 ^ 48) (hdl : dst.length = 6) (hsl : src.length = 6)
    (hdb : ∀ b ∈ dst, b < 256) (hsb : ∀ b ∈ src, b < 256)
    (hgb : ∀ b ∈ dgram, b < 256) :
    Frame.toFrame (Frame.init p dst src dgram).toBytes = Frame.init p dst src dgram ∧
    ((Frame.toFrame (Frame.init p dst src dgram).toBytes).ConfirmChecksum).1 = true := by
  have hdec := Frame.toFrame_init p dst src dgram hp hdl hsl
  exact ⟨hdec, by rw [hdec]; exact Frame.confirm_init p dst src dgram⟩

/-- Witness for C1 at a concrete frame. -/
theorem C1_witness :
    Frame.toFrame (Frame.init 0xbe42 [1, 2, 3, 4, 5, 6] [7, 8, 9, 10, 11, 12]
        [100, 101, 102]).toBytes =
      Frame.init 0xbe42 [1, 2, 3, 4, 5, 6] [7, 8, 9, 10, 11, 12] [100, 101, 102] ∧
    ((Frame.toFrame (Frame.init 0xbe42 [1, 2, 3, 4, 5, 6] [7, 8, 9, 10, 11, 12]
        [100, 101, 102]).toBytes).ConfirmChecksum).1 = true :=
  C1_decode_encode_roundtrip 0xbe42 [1, 2, 3, 4, 5, 6] [7, 8, 9, 10, 11, 12]
    [100, 101, 102] (by norm_num) (by decide) (by decide)
    (by decide) (by decide) (by decide)

theorem xor_left_comm_nat (a b c : Nat) : a ^^^ (b ^^^ c) = b ^^^ (a ^^^ c) := by
  rw [← Nat.xor_assoc, Nat.xor_comm a b, Nat.xor_assoc]

theorem xor_lt_256 (x y : Nat) (hx : x < 256) (hy : y < 256) : x ^^^ y < 256 := by
  have h : (256 : Nat) = 2 ^ 8 := by norm_num
  rw [h] at hx hy ⊢
  exact Nat.xor_lt_two_pow hx hy

theorem xorAll_singleton (x : Nat) : xorAll [x] = x := by
  rw [xorAll_cons]
  simp [xorAll]

theorem flipBitAt_length (buf : List Nat) (pos bit : Nat) (h : pos < buf.length) :
    (flipBitAt buf pos bit).length = buf.length := by
  simp only [flipBitAt, List.length_append, List.length_take, List.length_drop,
    List.length_cons, List.length_nil]
  omega

theorem getD_lt (buf : List Nat) (pos : Nat) (hb : ∀ b ∈ buf, b < 256) :
    buf.getD pos 0 < 256 := by
  by_cases h : pos < buf.length
  · rw [List.getD_eq_getElem buf 0 h]
    exact hb _ (List.getElem_mem h)
  · rw [List.getD_eq_default buf 0 (by omega)]
    norm_num

theorem flipBitAt_mem_lt (buf : List Nat) (pos bit : Nat)
    (hb : ∀ b ∈ buf, b < 256) (hbit : bit < 8) :
    ∀ b ∈ flipBitAt buf pos bit, b < 256 := by
  intro b h
  rcases List.mem_append.mp h with h1 | h1
  · rcases List.mem_append.mp h1 with h2 | h2
    · exact hb b (List.take_subset _ _ h2)
    · have hb2 : b = buf.getD pos 0 ^^^ 2 ^ bit := List.mem_singleton.mp h2
      have hp : (2 : Nat) ^ bit < 256 := by
        have h28 := Nat.pow_lt_pow_right (show 1 < 2 by norm_num) hbit
        rw [show (2 : Nat) ^ 8 = 256 from by norm_num] at h28
        exact h28
      rw [hb2]
      exact xor_lt_256 _ _ (getD_lt buf pos hb) hp
  · exact hb b (List.drop_subset _ _ h1)

theorem xorAll_flipBitAt (buf : List Nat) (pos bit : Nat) (h : pos < buf.length) :
    xorAll (flipBitAt buf pos bit) = xorAll buf ^^^ 2 ^ bit := by
  have hdec : buf = buf.take pos ++ [buf.getD pos 0] ++ buf.drop (pos + 1) := by
    conv_lhs => rw [← List.take_append_drop pos buf]
    rw [List.drop_eq_getElem_cons h, List.getD_eq_getElem buf 0 h]
    simp
  conv_rhs => rw [hdec]
  rw [flipBitAt, xorAll_append, xorAll_append, xorAll_append, xorAll_append,
    xorAll_singleton, xorAll_singleton]
  simp [Nat.xor_assoc, Nat.xor_comm, xor_left_comm_nat]

theorem Frame.init_toBytes_length (p : Nat) (dst src dgram : List Nat)
    (hdl : dst.length = 6) (hsl : src.length = 6) :
    (Frame.init p dst src dgram).toBytes.length = 22 + dgram.length := by
  rw [Frame.init_toBytes]
  simp [natToBytes_length, hdl, hsl]
  omega

theorem Frame.init_toBytes_mem_lt (p : Nat) (dst src dgram : List Nat)
    (hdb : ∀ b ∈ dst, b < 256) (hsb : ∀ b ∈ src, b < 256)
    (hgb : ∀ b ∈ dgram, b < 256) :
    ∀ b ∈ (Frame.init p dst src dgram).toBytes, b < 256 := by
  rw [Frame.init_toBytes]
  intro b h
  rcases List.mem_append.mp h with h1 | h1
  · rcases List.mem_append.mp h1 with h2 | h2
    · rcases List.mem_append.mp h2 with h3 | h3
      · rcases List.mem_append.mp h3 with h4 | h4
        · exact natToBytes_mem_lt 6 p b h4
        · exact hdb b h4
      · exact hsb b h3
    · exact natToBytes_mem_lt 4 _ b h2
  · exact hgb b h1

/-- C2: for every link frame and every bit position of the encoded byte
string, flipping exactly that one bit and then decoding produces a frame whose
checksum verification returns false. -/
theorem C2_bit_flip_detected (p : Nat) (dst src dgram : List Nat)
    (hp : p < 2 ^ 48) (hdl : dst.length = 6) (hsl : src.length = 6)
    (hdb : ∀ b ∈ dst, b < 256) (hsb : ∀ b ∈ src, b < 256)
    (hgb : ∀ b ∈ dgram, b < 256) (i : Nat)
    (hi : i < 8 * (Frame.init p dst src dgram).toBytes.length) :
    ((Frame.toFrame (flipBit (Frame.init p dst src dgram).toBytes i)).ConfirmChecksum).1 =
      false := by
  set buf := (Frame.init p dst src dgram).toBytes with hbuf
  have hlen : 22 ≤ buf.length := by
    rw [hbuf, Frame.init_toBytes_length p dst src dgram hdl hsl]
    omega
  have hmem : ∀ b ∈ buf, b < 256 := Frame.init_toBytes_mem_lt p dst src dgram hdb hsb hgb
  have hvalid : ((Frame.toFrame buf).ConfirmChecksum).1 = true := by
    rw [hbuf, Frame.toFrame_init p dst src dgram hp hdl hsl]
    exact Frame.confirm_init p dst src dgram
  have hzero : xorAll buf = 0 := xorAll_eq_zero_of_confirm buf hlen hmem hvalid
  have hpos : i / 8 < buf.length := by omega
  have hbit : i % 8 < 8 := by omega
  apply confirm_eq_false_of_xorAll_ne
  · rw [flipBit, flipBitAt_length buf _ _ hpos]
    exact hlen
  · exact flipBitAt_mem_lt buf _ _ hmem hbit
  · rw [flipBit, xorAll_flipBitAt buf _ _ hpos, hzero, Nat.zero_xor]
    exact pow_ne_zero _ (by norm_num)

/-- Witness for C2 at a concrete frame and bit position. -/
theorem C2_witness :
    ((Frame.toFrame (flipBit (Frame.init 0xbe42 [1, 2, 3, 4, 5, 6]
        [7, 8, 9, 10, 11, 12] [100, 101, 102]).toBytes 77)).ConfirmChecksum).1 = false :=
  C2_bit_flip_detected 0xbe42 [1, 2, 3, 4, 5, 6] [7, 8, 9, 10, 11, 12] [100, 101, 102]
    (by norm_num) (by decide) (by decide) (by decide) (by decide) (by decide)
    77 (by decide)

/-- C8 counterexample: decoding the empty buffer (length 0 < 22) does not fail
with any error; `Frame.toFrame` returns a frame built from the empty Python
slices, refuting the claim that short input is rejected with `BadFrame` (no
such error exists anywhere in the code and slicing never raises). -/
theorem C8_counterexample :
    Frame.toFrame [] =
      { protocol := 0, dstMacAdr := [], sourceMacAdr := [], checksum := [],
        datagram := [] } := by
  rfl

/-- C8 amended: decode of a buffer shorter than the 22-byte fixed header does
not fail; it returns a frame whose stored checksum field is shorter than 4
bytes, and every such frame fails checksum verification (so short buffers are
rejected at the checksum step, not by a `BadFrame` error). -/
theorem C8_short_decode (buf : List Nat) (h : buf.length < 22) :
    (Frame.toFrame buf).checksum.length < 4 ∧
    ((Frame.toFrame buf).ConfirmChecksum).1 = false := by
  have hcs : (Frame.toFrame buf).checksum = (buf.drop 18).take 4 := by
    simp [Frame.toFrame]
  have hlen : (Frame.toFrame buf).checksum.length < 4 := by
    rw [hcs, List.length_take, List.length_drop]
    omega
  refine ⟨hlen, ?_⟩
  show ((Frame.toFrame buf).CreateChecksum.1 == (Frame.toFrame buf).checksum) = false
  apply beq_eq_false_iff_ne.mpr
  intro he
  have h4 : (Frame.toFrame buf).CreateChecksum.1.length = 4 := by
    simp [Frame.CreateChecksum, natToBytes_length]
  rw [he] at h4
  omega

/-- Witness for C8's amended theorem at a concrete short buffer. -/
theorem C8_witness :
    (Frame.toFrame [1, 2, 3]).checksum.length < 4 ∧
    ((Frame.toFrame [1, 2, 3]).ConfirmChecksum).1 = false :=
  C8_short_decode [1, 2, 3] (by decide)

/-- C10: checksum verification is not pure: `ConfirmChecksum` (via the
`self.checksum = b''` assignment inside `CreateChecksum`, which is never
undone) leaves the frame's checksum field equal to the empty byte string, so
re-encoding the frame afterwards yields the serialisation without the 4-byte
checksum field, and a second verification on the same frame object returns
false (shown for any originally valid frame). -/
theorem C10_confirm_not_pure (f : Frame) (hvalid : (f.ConfirmChecksum).1 = true) :
    (f.ConfirmChecksum).2.checksum = [] ∧
    (f.ConfirmChecksum).2.toBytes =
      natToBytes 6 f.protocol ++ f.dstMacAdr ++ f.sourceMacAdr ++ f.datagram ∧
    ((f.ConfirmChecksum).2.ConfirmChecksum).1 = false := by
  refine ⟨rfl, ?_, ?_⟩
  · show ({ f with checksum := [] } : Frame).toBytes = _
    simp [Frame.toBytes]
  · show (((f.ConfirmChecksum).2.CreateChecksum).1 ==
      ({ f with checksum := [] } : Frame).checksum) = false
    apply beq_eq_false_iff_ne.mpr
    intro he
    have h4 : ((f.ConfirmChecksum).2.CreateChecksum).1.length = 4 := by
      simp [Frame.CreateChecksum, natToBytes_length]
    rw [he] at h4
    simp at h4

/-- Witness for C10 at a concrete valid frame. -/
theorem C10_witness :
    ((Frame.init 5 [1, 2, 3, 4, 5, 6] [7, 8, 9, 10, 11, 12] [42]).ConfirmChecksum).2.checksum
        = [] ∧
    ((Frame.init 5 [1, 2, 3, 4, 5, 6] [7, 8, 9, 10, 11, 12]
        [42]).ConfirmChecksum).2.toBytes =
      natToBytes 6 (Frame.init 5 [1, 2, 3, 4, 5, 6] [7, 8, 9, 10, 11, 12] [42]).protocol ++
        (Frame.init 5 [1, 2, 3, 4, 5, 6] [7, 8, 9, 10, 11, 12] [42]).dstMacAdr ++
        (Frame.init 5 [1, 2, 3, 4, 5, 6] [7, 8, 9, 10, 11, 12] [42]).sourceMacAdr ++
        (Frame.init 5 [1, 2, 3, 4, 5, 6] [7, 8, 9, 10, 11, 12] [42]).datagram ∧
    (((Frame.init 5 [1, 2, 3, 4, 5, 6] [7, 8, 9, 10, 11, 12]
        [42]).ConfirmChecksum).2.ConfirmChecksum).1 = false :=
  C10_confirm_not_pure (Frame.init 5 [1, 2, 3, 4, 5, 6] [7, 8, 9, 10, 11, 12] [42])
    (by decide)

theorem flipBitAt_getD_of_ne (l : List Nat) (pos bit j : Nat)
    (hpos : pos < l.length) (hj : j ≠ pos) :
    (flipBitAt l pos bit).getD j 0 = l.getD j 0 := by
  have hlt : (l.take pos).length = pos := by
    rw [List.length_take]
    omega
  rcases Nat.lt_or_ge j pos with h | h
  · rw [flipBitAt, List.append_assoc,
      List.getD_append _ _ _ _ (by rw [hlt]; exact h),
      List.getD_eq_getElem?_getD, List.getD_eq_getElem?_getD, List.getElem?_take]
    simp [h]
  · have hge : pos < j := by omega
    rw [flipBitAt, List.getD_append_right _ _ _ _ (by simp [hlt]; omega)]
    have hlen2 : (l.take pos ++ [l.getD pos 0 ^^^ 2 ^ bit]).length = pos + 1 := by
      simp [hlt]
    rw [hlen2, List.getD_eq_getElem?_getD, List.getElem?_drop,
      ← List.getD_eq_getElem?_getD]
    congr 1
    omega

theorem flipBitAt_getD_at (l : List Nat) (pos bit : Nat) (hpos : pos < l.length) :
    (flipBitAt l pos bit).getD pos 0 = l.getD pos 0 ^^^ 2 ^ bit := by
  have hlt : (l.take pos).length = pos := by
    rw [List.length_take]
    omega
  rw [flipBitAt, List.append_assoc, List.getD_append_right _ _ _ _ (by omega)]
  rw [hlt]
  simp

theorem flipBitAt_xor_getD (l : List Nat) (pos bit : Nat) (hpos : pos < l.length) :
    (flipBitAt l pos bit).getD pos 0 ^^^ l.getD pos 0 = 2 ^ bit := by
  rw [flipBitAt_getD_at l pos bit hpos, Nat.xor_comm (l.getD pos 0) (2 ^ bit),
    Nat.xor_assoc, Nat.xor_self, Nat.xor_zero]

theorem tx_ok_corrupt_false (st : LinkState) (sender : Nat) (buf : TxBuf)
    (pos bit : Nat) (st2 : LinkState) (ds : List (Nat × List Nat))
    (h : BroadcastLink.tx st sender buf pos bit = .ok st2 ds) :
    st2.corrupt = false := by
  rw [BroadcastLink.tx.eq_def] at h
  by_cases hs : sender ∈ st.nodes
  · simp only [if_pos hs] at h
    cases buf with
    | notBytes => cases h
    | bytes f0 =>
      cases hcor : st.corrupt with
      | false =>
          simp only [hcor, Bool.false_eq_true, if_false] at h
          injection h with h1 h2
          rw [← h1]
      | true =>
          simp only [hcor, if_true] at h
          by_cases hlen : f0.length = 0
          · simp only [if_pos hlen] at h
            cases h
          · simp only [if_neg hlen] at h
            injection h with h1 h2
            rw [← h1]
  · simp only [if_neg hs] at h
    cases h

theorem tx_err_state_eq (st : LinkState) (sender : Nat) (buf : TxBuf)
    (pos bit : Nat) (e : TxErr) (st2 : LinkState)
    (h : BroadcastLink.tx st sender buf pos bit = .err e st2) : st2 = st := by
  rw [BroadcastLink.tx.eq_def] at h
  by_cases hs : sender ∈ st.nodes
  · simp only [if_pos hs] at h
    cases buf with
    | notBytes =>
        injection h with h1 h2
        rw [h2]
    | bytes f0 =>
      cases hcor : st.corrupt with
      | false =>
          simp only [hcor, Bool.false_eq_true, if_false] at h
          cases h
      | true =>
          simp only [hcor, if_true] at h
          by_cases hlen : f0.length = 0
          · simp only [if_pos hlen] at h
            injection h with h1 h2
            rw [h2]
          · simp only [if_neg hlen] at h
            cases h
  · simp only [if_neg hs] at h
    injection h with h1 h2
    rw [h2]

/-- C5 counterexample: with the corruption flag set, a `tx` whose buffer is
not a byte sequence raises TypeError before reaching `self._corrupt = False`,
so the flag is NOT cleared (the post-state still has `corrupt = true`),
refuting the claim that the flag is cleared regardless of outcome. -/
theorem C5_counterexample :
    BroadcastLink.tx { nodes := [0, 1], corrupt := true } 0 .notBytes 0 0 =
      .err .typeError { nodes := [0, 1], corrupt := true } := by
  rfl

/-- C5 amended: the corruption flag affects only the next `tx` call that
completes normally; every completing `tx` clears it (even with no attached
receivers) and every raising `tx` (non-byte buffer, unattached sender, or
corrupt-flagged empty buffer) leaves the state — hence the flag — unchanged.
When the flag is set and an attached sender transmits a nonempty byte buffer,
every receiver is delivered the same corrupted bytes, which differ from the
transmitted ones in exactly bit `bit` of exactly byte `pos`. -/
theorem C5_corruption_semantics (st : LinkState) (sender : Nat) (l : List Nat)
    (pos bit : Nat) (hs : sender ∈ st.nodes) (hc : st.corrupt = true)
    (hl : l ≠ []) (hpos : pos < l.length) (hbit : bit < 8) :
    (BroadcastLink.tx st sender (.bytes l) pos bit =
      .ok { st with corrupt := false }
        ((st.nodes.filter (fun n => n ≠ sender)).map
          (fun n => (n, flipBitAt l pos bit)))) ∧
    (flipBitAt l pos bit).length = l.length ∧
    (∀ j, j < l.length → j ≠ pos →
      (flipBitAt l pos bit).getD j 0 = l.getD j 0) ∧
    (flipBitAt l pos bit).getD pos 0 ^^^ l.getD pos 0 = 2 ^ bit ∧
    (flipBitAt l pos bit).getD pos 0 ≠ l.getD pos 0 ∧
    (∀ st0 sender0 buf0 pos0 bit0 st2 ds,
      BroadcastLink.tx st0 sender0 buf0 pos0 bit0 = .ok st2 ds →
        st2.corrupt = false) ∧
    (∀ st0 sender0 buf0 pos0 bit0 e st2,
      BroadcastLink.tx st0 sender0 buf0 pos0 bit0 = .err e st2 → st2 = st0) := by
  have hlen0 : ¬ l.length = 0 := by
    intro h0
    exact hl (List.length_eq_zero.mp h0)
  refine ⟨?_, flipBitAt_length l pos bit hpos,
    fun j hj hne => flipBitAt_getD_of_ne l pos bit j hpos hne,
    flipBitAt_xor_getD l pos bit hpos, ?_,
    tx_ok_corrupt_false, tx_err_state_eq⟩
  · rw [BroadcastLink.tx]
    simp only [if_pos hs, hc, if_true, if_neg hlen0]
  · intro heq
    have hx := flipBitAt_xor_getD l pos bit hpos
    rw [heq, Nat.xor_self] at hx
    exact pow_ne_zero bit (by norm_num : (2 : Nat) ≠ 0) hx.symm

/-- Witness for C5's amended theorem at a concrete link and transmission. -/
theorem C5_witness :
    (BroadcastLink.tx { nodes := [0, 1], corrupt := true } 0 (.bytes [7]) 0 3 =
      .ok { nodes := [0, 1], corrupt := false }
        ((([0, 1] : List Nat).filter (fun n => n ≠ 0)).map
          (fun n => (n, flipBitAt [7] 0 3)))) ∧
    (flipBitAt [7] 0 3).length = ([7] : List Nat).length ∧
    (∀ j, j < ([7] : List Nat).length → j ≠ 0 →
      (flipBitAt [7] 0 3).getD j 0 = ([7] : List Nat).getD j 0) ∧
    (flipBitAt [7] 0 3).getD 0 0 ^^^ ([7] : List Nat).getD 0 0 = 2 ^ 3 ∧
    (flipBitAt [7] 0 3).getD 0 0 ≠ ([7] : List Nat).getD 0 0 ∧
    (∀ st0 sender0 buf0 pos0 bit0 st2 ds,
      BroadcastLink.tx st0 sender0 buf0 pos0 bit0 = .ok st2 ds →
        st2.corrupt = false) ∧
    (∀ st0 sender0 buf0 pos0 bit0 e st2,
      BroadcastLink.tx st0 sender0 buf0 pos0 bit0 = .err e st2 → st2 = st0) :=
  C5_corruption_semantics { nodes := [0, 1], corrupt := true } 0 [7] 0 3
    (by decide) (by decide) (by decide) (by decide) (by decide)

/-- C6 counterexample: on a link with attached set `{0, 1}` and the corruption
flag set, `tx(0, b'')` raises ValueError from `random.randint(0, -1)`, so node
1 ∈ S \ {0} receives no `rx_link` callback at all, refuting the claim for
this `tx` call. -/
theorem C6_counterexample :
    BroadcastLink.tx { nodes := [0, 1], corrupt := true } 0 (.bytes []) 0 0 =
      .err .valueError { nodes := [0, 1], corrupt := true } := by
  rfl

/-- C6 amended: for every `tx(sender, buf)` with `buf` a byte sequence and an
attached sender that completes normally (corruption flag unset or buffer
nonempty), exactly the nodes of the attached set other than the sender receive an `rx_link`
callback, each exactly once, and the sender receives none. -/
theorem C6_delivery_set (st : LinkState) (sender : Nat) (l : List Nat)
    (pos bit : Nat) (hs : sender ∈ st.nodes) (hnd : st.nodes.Nodup)
    (hok : st.corrupt = false ∨ l ≠ []) :
    ∃ st2 ds, BroadcastLink.tx st sender (.bytes l) pos bit = .ok st2 ds ∧
      (∀ n, (ds.map Prod.fst).count n =
        if n ∈ st.nodes ∧ n ≠ sender then 1 else 0) ∧
      (ds.map Prod.fst).count sender = 0 := by
  have hcount : ∀ n, ((st.nodes.filter (fun m => m ≠ sender)).count n) =
      if n ∈ st.nodes ∧ n ≠ sender then 1 else 0 := by
    intro n
    by_cases hne : n = sender
    · subst hne
      rw [if_neg (by simp)]
      rw [List.count_eq_zero]
      intro hm
      have := (List.mem_filter.mp hm).2
      simp at this
    · by_cases hmem : n ∈ st.nodes
      · rw [if_pos ⟨hmem, hne⟩]
        exact List.count_eq_one_of_mem (hnd.filter _)
          (List.mem_filter.mpr ⟨hmem, by simp [hne]⟩)
      · rw [if_neg (by tauto)]
        rw [List.count_eq_zero]
        intro hm
        exact hmem (List.mem_filter.mp hm).1
  have hmap : ∀ (payload : List Nat),
      ((st.nodes.filter (fun m => m ≠ sender)).map
        (fun n => (n, payload))).map Prod.fst =
        st.nodes.filter (fun m => m ≠ sender) := by
    intro payload
    rw [List.map_map]
    exact List.map_id _
  cases hcor : st.corrupt with
  | true =>
      have hl : ¬ l.length = 0 := by
        rcases hok with h | h
        · rw [h] at hcor
          cases hcor
        · intro h0
          exact h (List.length_eq_zero.mp h0)
      have htx : BroadcastLink.tx st sender (.bytes l) pos bit =
          .ok { st with corrupt := false }
            ((st.nodes.filter (fun m => m ≠ sender)).map
              (fun n => (n, flipBitAt l pos bit))) := by
        rw [BroadcastLink.tx]
        simp only [if_pos hs, hcor, if_true, if_neg hl]
      refine ⟨_, _, htx, ?_, ?_⟩
      · intro n
        rw [hmap, hcount]
      · rw [hmap, hcount]
        simp
  | false =>
      have htx : BroadcastLink.tx st sender (.bytes l) pos bit =
          .ok { st with corrupt := false }
            ((st.nodes.filter (fun m => m ≠ sender)).map (fun n => (n, l))) := by
        rw [BroadcastLink.tx]
        simp only [if_pos hs, hcor, Bool.false_eq_true, if_false]
      refine ⟨_, _, htx, ?_, ?_⟩
      · intro n
        rw [hmap, hcount]
      · rw [hmap, hcount]
        simp

/-- Witness for C6's amended theorem at a concrete link and transmission. -/
theorem C6_witness :
    ∃ st2 ds,
      BroadcastLink.tx { nodes := [0, 1], corrupt := false } 0 (.bytes [5]) 0 0 =
        .ok st2 ds ∧
      (∀ n, (ds.map Prod.fst).count n =
        if n ∈ ({ nodes := [0, 1], corrupt := false } : LinkState).nodes ∧ n ≠ 0
        then 1 else 0) ∧
      (ds.map Prod.fst).count 0 = 0 :=
  C6_delivery_set { nodes := [0, 1], corrupt := false } 0 [5] 0 0
    (by decide) (by decide) (Or.inl rfl)

theorem Frame.confirm_snd (f : Frame) :
    (f.ConfirmChecksum).2 = { f with checksum := [] } := rfl

/-- C3: for every checksum-valid frame received by the switch on ingress port
`q`: if the frame's destination hwaddr is in the switching table with learned
port `p`, the frame is forwarded out `p` exactly when `p ≠ q` and dropped when
`p = q`, with the switching table unmodified (no source learning on this
path); otherwise — destination not in the table, which includes the all-ones
broadcast hwaddr in normal operation — the entry (source hwaddr → q) is
inserted or overwritten and the original bytes are forwarded out every port
except `q`. -/
theorem C3_switch_forwarding (st : SwitchState) (q : Nat) (buf : List Nat)
    (hv : ((Frame.toFrame buf).ConfirmChecksum).1 = true) :
    (∀ p, dictLookup st.switchingTable (Frame.toFrame buf).dstMacAdr = some p →
      EponaSwitch.rx st q buf = (st, if p ≠ q then [(p, buf)] else [])) ∧
    (dictLookup st.switchingTable (Frame.toFrame buf).dstMacAdr = none →
      EponaSwitch.rx st q buf =
        ({ st with switchingTable :=
            dictInsert st.switchingTable (Frame.toFrame buf).sourceMacAdr q },
          ((List.range st.nports).filter (fun i => i ≠ q)).map (fun i => (i, buf)))) := by
  have hdst : ((Frame.toFrame buf).ConfirmChecksum).2.dstMacAdr =
      (Frame.toFrame buf).dstMacAdr := rfl
  have hsrc : ((Frame.toFrame buf).ConfirmChecksum).2.sourceMacAdr =
      (Frame.toFrame buf).sourceMacAdr := rfl
  constructor
  · intro p hp
    rw [EponaSwitch.rx]
    simp only [hv, hdst, hp, Bool.true_eq_false, if_false]
    by_cases hpq : p ≠ q
    · rw [if_pos hpq, if_pos hpq]
    · rw [if_neg hpq, if_neg hpq]
  · intro hnone
    rw [EponaSwitch.rx]
    simp only [hv, hdst, hsrc, hnone, Bool.true_eq_false, if_false,
      EponaSwitch.broadcast]

/-- Witness for C3 at a concrete switch state and valid frame. -/
theorem C3_witness :
    (∀ p, dictLookup sampleSwitch.switchingTable
        (Frame.toFrame sampleFrameBytes).dstMacAdr = some p →
      EponaSwitch.rx sampleSwitch 0 sampleFrameBytes =
        (sampleSwitch, if p ≠ 0 then [(p, sampleFrameBytes)] else [])) ∧
    (dictLookup sampleSwitch.switchingTable
        (Frame.toFrame sampleFrameBytes).dstMacAdr = none →
      EponaSwitch.rx sampleSwitch 0 sampleFrameBytes =
        ({ sampleSwitch with
            switchingTable := dictInsert sampleSwitch.switchingTable
              (Frame.toFrame sampleFrameBytes).sourceMacAdr 0 },
          ((List.range sampleSwitch.nports).filter (fun i => i ≠ 0)).map
            (fun i => (i, sampleFrameBytes)))) :=
  C3_switch_forwarding sampleSwitch 0 sampleFrameBytes (by decide)

/-- C7: a received byte buffer whose decoded frame fails checksum verification
makes the adapter's rx deliver nothing to the upper layer, transmit nothing
and leave its state unchanged, and makes the switch's rx leave its switching
table (whole state) unchanged and forward nothing. -/
theorem C7_bad_checksum_dropped (ast : AdapterState) (signal : Nat → Bool)
    (fuel k : Nat) (sst : SwitchState) (q : Nat) (buf : List Nat)
    (hv : ((Frame.toFrame buf).ConfirmChecksum).1 = false) :
    EponaAdapter.rx signal fuel k ast buf = (ast, [], none) ∧
    EponaSwitch.rx sst q buf = (sst, []) := by
  constructor
  · rw [EponaAdapter.rx]
    simp only [hv, if_pos]
  · rw [EponaSwitch.rx]
    simp only [hv, if_pos]

/-- Witness for C7 at a concrete checksum-bad buffer. -/
theorem C7_witness :
    EponaAdapter.rx (fun _ => false) 1 0 sampleAdapter [5] =
      (sampleAdapter, [], none) ∧
    EponaSwitch.rx { nports := 6, switchingTable := [] } 0 [5] =
      ({ nports := 6, switchingTable := [] }, []) :=
  C7_bad_checksum_dropped sampleAdapter (fun _ => false) 1 0
    { nports := 6, switchingTable := [] } 0 [5] (by decide)

theorem discoverLoop_no_signal (signal : Nat → Bool) (reqBytes : List Nat) (k : Nat)
    (st : AdapterState) (hsig : ∀ i, signal i = false) :
    discoverLoop signal reqBytes 3 k st =
      ({ st with arpMessageRecieved := false },
        [Ev.tx reqBytes, Ev.wait 100, Ev.tx reqBytes, Ev.wait 100,
          Ev.tx reqBytes, Ev.wait 100], true, k + 3) := by
  have h0 := hsig k
  have h1 := hsig (k + 1)
  have h2 := hsig (k + 2)
  simp [discoverLoop, h0, h1, h2]

/-- C4: when `output_ip` is called for an (on-subnet) address that is not in
the resolution cache and no success signal ever arrives, the resolution
procedure transmits the link-broadcast ARP request exactly three times — thus
at most three times — waiting up to 100 ms after each transmission, then
raises `NoRouteToHost` to the caller of `output_ip` (the error propagates out
of `output_ip`), and the resolution cache is unchanged when the error is
raised. -/
theorem C4_timeout_noroute (signal : Nat → Bool) (fuel k : Nat) (st : AdapterState)
    (protonum : Nat) (addr dgram : List Nat) (hfuel : 1 ≤ fuel)
    (hin : inNetwork st.iface addr = true)
    (hmiss : dictLookup st.arpTable addr = none)
    (hsig : ∀ i, signal i = false) :
    EponaAdapter.output_ip signal fuel k st protonum addr dgram =
      ({ st with arpMessageRecieved := false },
        [Ev.tx (arpRequestBytes st addr), Ev.wait 100,
          Ev.tx (arpRequestBytes st addr), Ev.wait 100,
          Ev.tx (arpRequestBytes st addr), Ev.wait 100],
        some .noRouteToHost) ∧
    ({ st with arpMessageRecieved := false } : AdapterState).arpTable = st.arpTable := by
  obtain ⟨n, rfl⟩ : ∃ n, fuel = n + 1 := ⟨fuel - 1, by omega⟩
  refine ⟨?_, rfl⟩
  rw [EponaAdapter.output_ip]
  rw [hin]
  simp only [Bool.true_eq_false, if_false, hmiss]
  rw [EponaAdapter.arpIpDiscoverProcess]
  rw [discoverLoop_no_signal signal _ k st hsig]
  rfl

/-- Witness for C4 at a concrete adapter, address and all-false signal. -/
theorem C4_witness :
    EponaAdapter.output_ip (fun _ => false) 1 0 sampleAdapter 7 [10, 0, 0, 7] [1] =
      ({ sampleAdapter with arpMessageRecieved := false },
        [Ev.tx (arpRequestBytes sampleAdapter [10, 0, 0, 7]), Ev.wait 100,
          Ev.tx (arpRequestBytes sampleAdapter [10, 0, 0, 7]), Ev.wait 100,
          Ev.tx (arpRequestBytes sampleAdapter [10, 0, 0, 7]), Ev.wait 100],
        some .noRouteToHost) ∧
    ({ sampleAdapter with arpMessageRecieved := false } : AdapterState).arpTable =
      sampleAdapter.arpTable :=
  C4_timeout_noroute (fun _ => false) 1 0 sampleAdapter 7 [10, 0, 0, 7] [1]
    (by norm_num) (by decide) (by decide) (fun i => rfl)

theorem discoverLoop_fields (signal : Nat → Bool) (reqBytes : List Nat) :
    ∀ count k st,
      (discoverLoop signal reqBytes count k st).1.arpTable = st.arpTable ∧
      (discoverLoop signal reqBytes count k st).1.iface = st.iface ∧
      (discoverLoop signal reqBytes count k st).1.gateway = st.gateway ∧
      (discoverLoop signal reqBytes count k st).1.hwaddr = st.hwaddr := by
  intro count
  induction count with
  | zero => intro k st; exact ⟨rfl, rfl, rfl, rfl⟩
  | succ n ih =>
      intro k st
      rw [discoverLoop]
      by_cases h : signal k = true
      · simp [h]
      · rw [Bool.not_eq_true] at h
        simp only [h, Bool.false_eq_true, if_false]
        exact ih (k + 1) { st with arpMessageRecieved := false }

theorem output_ip_fields (signal : Nat → Bool) :
    ∀ fuel k st protonum addr dgram,
      (EponaAdapter.output_ip signal fuel k st protonum addr dgram).1.arpTable =
        st.arpTable ∧
      (EponaAdapter.output_ip signal fuel k st protonum addr dgram).1.iface =
        st.iface ∧
      (EponaAdapter.output_ip signal fuel k st protonum addr dgram).1.gateway =
        st.gateway := by
  intro fuel
  induction fuel with
  | zero => intro k st protonum addr dgram; exact ⟨rfl, rfl, rfl⟩
  | succ n ih =>
      intro k st protonum addr dgram
      rw [EponaAdapter.output_ip]
      by_cases hnet : inNetwork st.iface addr = false
      · rw [if_pos hnet]
        by_cases hgw : dictLookup st.arpTable st.gateway = none
        · rw [if_pos hgw]
          have hd := discoverLoop_fields signal
            ((Frame.init MARE_PROTONUM BROADCAST_MAC st.hwaddr
              (ArpFrame.init st.hwaddr st.hwaddr st.gateway st.iface.ip
                false).toBytes).toBytes) 3 k st
          by_cases hr : (EponaAdapter.arpIpDiscoverProcess signal st st.gateway k).2.2.1
          · rw [if_pos hr]
            exact ⟨hd.1, hd.2.1, hd.2.2.1⟩
          · rw [if_neg hr]
            have hrec := ih (EponaAdapter.arpIpDiscoverProcess signal st st.gateway k).2.2.2
              (EponaAdapter.arpIpDiscoverProcess signal st st.gateway k).1 protonum
              (EponaAdapter.arpIpDiscoverProcess signal st st.gateway k).1.gateway dgram
            exact ⟨hrec.1.trans hd.1, hrec.2.1.trans hd.2.1, hrec.2.2.trans hd.2.2.1⟩
        · rw [if_neg hgw]
          exact ih k st protonum st.gateway dgram
      · rw [if_neg hnet]
        cases hl : dictLookup st.arpTable addr with
        | some mac => exact ⟨rfl, rfl, rfl⟩
        | none =>
            have hd := discoverLoop_fields signal
              ((Frame.init MARE_PROTONUM BROADCAST_MAC st.hwaddr
                (ArpFrame.init st.hwaddr st.hwaddr addr st.iface.ip
                  false).toBytes).toBytes) 3 k st
            by_cases hr : (EponaAdapter.arpIpDiscoverProcess signal st addr k).2.2.1
            · rw [if_pos hr]
              exact ⟨hd.1, hd.2.1, hd.2.2.1⟩
            · rw [if_neg hr]
              have hrec := ih (EponaAdapter.arpIpDiscoverProcess signal st addr k).2.2.2
                (EponaAdapter.arpIpDiscoverProcess signal st addr k).1 protonum addr dgram
              exact ⟨hrec.1.trans hd.1, hrec.2.1.trans hd.2.1, hrec.2.2.trans hd.2.2.1⟩

theorem arpIpDiscoverProcess_fields (signal : Nat → Bool) (st : AdapterState)
    (addr : List Nat) (k : Nat) :
    (EponaAdapter.arpIpDiscoverProcess signal st addr k).1.arpTable = st.arpTable ∧
    (EponaAdapter.arpIpDiscoverProcess signal st addr k).1.iface = st.iface ∧
    (EponaAdapter.arpIpDiscoverProcess signal st addr k).1.gateway = st.gateway ∧
    (EponaAdapter.arpIpDiscoverProcess signal st addr k).1.hwaddr = st.hwaddr := by
  rw [EponaAdapter.arpIpDiscoverProcess]
  exact discoverLoop_fields signal _ 3 k st

theorem output_ip_success_lookup (signal : Nat → Bool) :
    ∀ fuel k st protonum addr dgram st2 evs,
      EponaAdapter.output_ip signal fuel k st protonum addr dgram = (st2, evs, none) →
      (inNetwork st.iface addr = true →
        (dictLookup st2.arpTable addr).isSome = true) ∧
      (inNetwork st.iface addr = false →
        (dictLookup st2.arpTable st.gateway).isSome = true) := by
  intro fuel
  induction fuel with
  | zero =>
      intro k st protonum addr dgram st2 evs h
      rw [EponaAdapter.output_ip] at h
      have h3 := congrArg (fun t => t.2.2) h
      simp at h3
  | succ n ih =>
      intro k st protonum addr dgram st2 evs h
      rw [EponaAdapter.output_ip] at h
      by_cases hnet : inNetwork st.iface addr = false
      · rw [if_pos hnet] at h
        refine ⟨fun htrue => ?_, fun _ => ?_⟩
        · rw [hnet] at htrue
          cases htrue
        · by_cases hgw : dictLookup st.arpTable st.gateway = none
          · rw [if_pos hgw] at h
            set d := EponaAdapter.arpIpDiscoverProcess signal st st.gateway k with hd
            have hdf := arpIpDiscoverProcess_fields signal st st.gateway k
            rw [← hd] at hdf
            by_cases hr : d.2.2.1
            · rw [if_pos hr] at h
              have h3 := congrArg (fun t => t.2.2) h
              simp at h3
            · rw [if_neg hr] at h
              set r := EponaAdapter.output_ip signal n d.2.2.2 d.1 protonum
                d.1.gateway dgram with hrdef
              have h1 : r.1 = st2 := congrArg (fun t => t.1) h
              have h3 : r.2.2 = none := congrArg (fun t => t.2.2) h
              have hcall : EponaAdapter.output_ip signal n d.2.2.2 d.1 protonum
                  d.1.gateway dgram = (st2, r.2.1, none) := by
                rw [← hrdef]
                calc r = (r.1, r.2.1, r.2.2) := rfl
                  _ = (st2, r.2.1, none) := by rw [h1, h3]
              have hres := ih d.2.2.2 d.1 protonum d.1.gateway dgram st2 r.2.1 hcall
              have hout : (dictLookup st2.arpTable d.1.gateway).isSome = true := by
                cases hb : inNetwork d.1.iface d.1.gateway with
                | true => exact hres.1 hb
                | false => exact hres.2 hb
              rw [hdf.2.2.1] at hout
              exact hout
          · rw [if_neg hgw] at h
            have hres := ih k st protonum st.gateway dgram st2 evs h
            cases hb : inNetwork st.iface st.gateway with
            | true => exact hres.1 hb
            | false => exact hres.2 hb
      · rw [if_neg hnet] at h
        have hnet' : inNetwork st.iface addr = true := by
          revert hnet
          cases inNetwork st.iface addr <;> simp
        refine ⟨fun _ => ?_, fun hfalse => absurd hfalse hnet⟩
        cases hl : dictLookup st.arpTable addr with
        | some mac =>
            rw [hl] at h
            simp only [] at h
            have h1 : st = st2 := congrArg (fun t => t.1) h
            rw [← h1, hl]
            rfl
        | none =>
            rw [hl] at h
            simp only [] at h
            set d := EponaAdapter.arpIpDiscoverProcess signal st addr k with hd
            have hdf := arpIpDiscoverProcess_fields signal st addr k
            rw [← hd] at hdf
            by_cases hr : d.2.2.1
            · rw [if_pos hr] at h
              have h3 := congrArg (fun t => t.2.2) h
              simp at h3
            · rw [if_neg hr] at h
              set r := EponaAdapter.output_ip signal n d.2.2.2 d.1 protonum addr dgram
                with hrdef
              have h1 : r.1 = st2 := congrArg (fun t => t.1) h
              have h3 : r.2.2 = none := congrArg (fun t => t.2.2) h
              have hcall : EponaAdapter.output_ip signal n d.2.2.2 d.1 protonum
                  addr dgram = (st2, r.2.1, none) := by
                rw [← hrdef]
                calc r = (r.1, r.2.1, r.2.2) := rfl
                  _ = (st2, r.2.1, none) := by rw [h1, h3]
              have hres := ih d.2.2.2 d.1 protonum addr dgram st2 r.2.1 hcall
              exact hres.1 (by rw [hdf.2.1, hnet'])

/-- C9 counterexample: for the off-subnet address 192.168.0.1 and an adapter
whose gateway is already cached, `output_ip` returns successfully (error
component `none`, nothing raised) yet the resolution cache afterwards contains
no entry for that address — refuting the claim that a successful
`output_ip(_, a, _)` always leaves an entry for `a` in the cache. -/
theorem C9_counterexample :
    (EponaAdapter.output_ip (fun _ => false) 2 0 sampleAdapter 7
      [192, 168, 0, 1] [1]).2.2 = none ∧
    dictLookup (EponaAdapter.output_ip (fun _ => false) 2 0 sampleAdapter 7
      [192, 168, 0, 1] [1]).1.arpTable [192, 168, 0, 1] = none := by
  decide

/-- C9 amended: after a successful `output_ip(_, a, _)` the resolution cache
contains an entry for `a` whenever `a` lies in the adapter's own subnet; for
an off-subnet `a` it contains an entry for the gateway instead (and not
necessarily one for `a`). -/
theorem C9_success_cache (signal : Nat → Bool) (fuel k : Nat) (st : AdapterState)
    (protonum : Nat) (addr dgram : List Nat) (st2 : AdapterState) (evs : List Ev)
    (h : EponaAdapter.output_ip signal fuel k st protonum addr dgram =
      (st2, evs, none)) :
    (inNetwork st.iface addr = true →
      (dictLookup st2.arpTable addr).isSome = true) ∧
    (inNetwork st.iface addr = false →
      (dictLookup st2.arpTable st.gateway).isSome = true) :=
  output_ip_success_lookup signal fuel k st protonum addr dgram st2 evs h

/-- Witness for C9's amended theorem at a concrete successful call. -/
theorem C9_witness :
    (inNetwork sampleAdapter.iface [10, 0, 0, 254] = true →
      (dictLookup (EponaAdapter.output_ip (fun _ => false) 1 0 sampleAdapter 7
        [10, 0, 0, 254] [1]).1.arpTable [10, 0, 0, 254]).isSome = true) ∧
    (inNetwork sampleAdapter.iface [10, 0, 0, 254] = false →
      (dictLookup (EponaAdapter.output_ip (fun _ => false) 1 0 sampleAdapter 7
        [10, 0, 0, 254] [1]).1.arpTable sampleAdapter.gateway).isSome = true) :=
  C9_success_cache (fun _ => false) 1 0 sampleAdapter 7 [10, 0, 0, 254] [1]
    (EponaAdapter.output_ip (fun _ => false) 1 0 sampleAdapter 7
      [10, 0, 0, 254] [1]).1
    (EponaAdapter.output_ip (fun _ => false) 1 0 sampleAdapter 7
      [10, 0, 0, 254] [1]).2.1
    (by decide)

end Epona
